import Mathlib

/-!
Verification development for the `sanskrit_analyser` repository.

The UI layer (Pinia analysis store, Vue `App`/`InputBar` components, the
axios API client) is embedded directly from the TypeScript sources.
The ensemble/disambiguation/cache core exists in the repository only as a
design document, so those parts are modelled from the specification text;
each such definition carries a doc comment saying so.
-/

namespace SanskritAnalyser

/-- Analysis mode options (`AnalysisMode` in `stores/analysis.ts`). -/
inductive AnalysisMode
  | production
  | educational
  | academic
deriving DecidableEq, Repr

/-- The wire string for a mode, as serialized in requests. -/
def AnalysisMode.toWire : AnalysisMode → String
  | .production => "production"
  | .educational => "educational"
  | .academic => "academic"

/-- A JSON value as it appears in request bodies built by the client. -/
inductive JsonValue
  | str (s : String)
  | num (n : Int)
  | bool (b : Bool)
  | strList (l : List String)
deriving DecidableEq, Repr

/-- An HTTP request as constructed by the axios API client
(`src/ui/src/api/client.ts`): method, path, and JSON body fields.
Optional fields left `undefined` by the caller are omitted from the
serialized body. -/
structure ApiRequest where
  method : String
  path : String
  body : List (String × JsonValue)
deriving DecidableEq, Repr

/-- Serialize an optional field: present iff the value is `some`. -/
def optField (name : String) (v : Option JsonValue) : List (String × JsonValue) :=
  match v with
  | some j => [(name, j)]
  | none => []

/-- The request built by `analyzeText` in `client.ts`: a POST to
`/api/v1/analyze` whose body is an `AnalyzeRequest`
`{text, mode, return_all_parses?, context?, engines?, bypass_cache?}`,
with `mode` defaulting to `production` at the call site. -/
def analyzeTextRequest (text : String) (mode : AnalysisMode)
    (returnAllParses : Option Bool) (context : Option String)
    (engines : Option (List String)) (bypassCache : Option Bool) : ApiRequest :=
  { method := "POST"
    path := "/api/v1/analyze"
    body :=
      [("text", .str text), ("mode", .str mode.toWire)]
        ++ optField "return_all_parses" (returnAllParses.map .bool)
        ++ optField "context" (context.map .str)
        ++ optField "engines" (engines.map .strList)
        ++ optField "bypass_cache" (bypassCache.map .bool) }

/-- The field names the claim about `AnalysisRequest` allows:
text, mode, context, engine subset, cache-bypass flag. -/
def claimedAnalyzeFields : List String :=
  ["text", "mode", "context", "engines", "bypass_cache"]

/-- The request built by `saveDisambiguation` in `client.ts`: a POST to
`/api/v1/disambiguate` whose body is a `DisambiguateRequest`
`{sentence_id: string, selected_parse: string}`. -/
def saveDisambiguationRequest (sentenceId selectedParse : String) : ApiRequest :=
  { method := "POST"
    path := "/api/v1/disambiguate"
    body := [("sentence_id", .str sentenceId), ("selected_parse", .str selectedParse)] }

/-- Confidence band as displayed by the UI. -/
inductive Band
  | high
  | medium
  | low
deriving DecidableEq, Repr

/-- The band the `App.vue` confidence badge assigns to an overall
confidence value: `high` iff ≥ 0.8, `medium` iff in [0.5, 0.8),
`low` iff < 0.5 (class bindings in `src/ui/src/App.vue`). -/
def confidenceBadgeBand (c : ℚ) : Band :=
  if 0.8 ≤ c then .high
  else if 0.5 ≤ c then .medium
  else .low

/-- The band boundaries the specification describes for ensemble
confidence interpretation: ≥ 0.95 resolved/high, ≥ 0.7 medium,
otherwise low. -/
def specBand (c : ℚ) : Band :=
  if 0.95 ≤ c then .high
  else if 0.7 ≤ c then .medium
  else .low

/-- `getConfidenceColor` from the `ParseTree` component: green for
confidence ≥ 0.8, yellow for ≥ 0.5, red below. -/
def getConfidenceColor (confidence : ℚ) : String :=
  if 0.8 ≤ confidence then "#22c55e"
  else if 0.5 ≤ confidence then "#eab308"
  else "#ef4444"

/-- `ScriptVariants` from `stores/analysis.ts`. -/
structure ScriptVariants where
  devanagari : String
  iast : String
  slp1 : String
  itrans : Option String
deriving DecidableEq, Repr

/-- `MorphologicalTag` from `stores/analysis.ts`; `case` is renamed
`case_` because `case` is a Lean keyword. -/
structure MorphologicalTag where
  pos : Option String
  gender : Option String
  number : Option String
  case_ : Option String
  person : Option String
  tense : Option String
  mood : Option String
  voice : Option String
deriving DecidableEq, Repr

/-- `DhatuInfo` from `stores/analysis.ts`. -/
structure DhatuInfo where
  dhatu : String
  meaning : Option String
  gana : Option Int
  pada : Option String
deriving DecidableEq, Repr

/-- `BaseWord` from `stores/analysis.ts`; `lemma` is renamed `lemma_`
because `lemma` is a Lean keyword. -/
structure BaseWord where
  word_id : String
  lemma_ : String
  surface_form : String
  scripts : Option ScriptVariants
  morphology : Option MorphologicalTag
  meanings : List String
  dhatu : Option DhatuInfo
  confidence : ℚ
deriving DecidableEq, Repr

/-- `SandhiGroup` from `stores/analysis.ts`. -/
structure SandhiGroup where
  group_id : String
  surface_form : String
  base_words : List BaseWord
deriving DecidableEq, Repr

/-- `ParseTree` from `stores/analysis.ts`: one parse interpretation. -/
structure ParseTree where
  parse_id : String
  confidence : ℚ
  sandhi_groups : List SandhiGroup
  is_selected : Bool
deriving DecidableEq, Repr

/-- `ConfidenceMetrics` from `stores/analysis.ts`. -/
structure ConfidenceMetrics where
  overall : ℚ
  engine_agreement : ℚ
  disambiguation_score : Option ℚ
deriving DecidableEq, Repr

/-- `AnalysisTree` from `stores/analysis.ts`: the complete analysis
result delivered to the UI. `needs_human_review` is a required field. -/
structure AnalysisTree where
  sentence_id : String
  original_text : String
  normalized_slp1 : String
  scripts : ScriptVariants
  parse_forest : List ParseTree
  confidence : ConfidenceMetrics
  mode : String
  cached_at : Option String
  cache_tier : Option String
  needs_human_review : Bool
  engine_details : Option (List (String × JsonValue))
deriving DecidableEq, Repr

/-- The display-script selection of the store. -/
inductive DisplayScript
  | devanagari
  | iast
  | slp1
deriving DecidableEq, Repr

/-- The reactive state of the Pinia analysis store
(`useAnalysisStore` in `stores/analysis.ts`). `currentParseIndex` is a
JavaScript number, modelled as `Int`. -/
structure StoreState where
  inputText : String
  mode : AnalysisMode
  displayScript : DisplayScript
  result : Option AnalysisTree
  currentParseIndex : Int
  isLoading : Bool
  error : Option String
deriving DecidableEq, Repr

/-- The initial state of the store: empty input, production mode, no result. -/
def initialStore : StoreState :=
  { inputText := ""
    mode := .production
    displayScript := .devanagari
    result := none
    currentParseIndex := 0
    isLoading := false
    error := none }

/-- JavaScript array indexing `l[i]`: `undefined` (`none`) for a
negative or out-of-range index. -/
def jsGet {α : Type} (l : List α) (i : Int) : Option α :=
  if 0 ≤ i then l.get? i.toNat else none

/-- Getter `currentParse`: `null` when there is no result or the parse
forest is empty, otherwise `parse_forest[currentParseIndex]`. -/
def currentParse (s : StoreState) : Option ParseTree :=
  match s.result with
  | none => none
  | some r =>
      if r.parse_forest.length = 0 then none
      else jsGet r.parse_forest s.currentParseIndex

/-- Getter `parseCount` (`result?.parse_forest.length ?? 0`). -/
def parseCount (s : StoreState) : Nat :=
  match s.result with
  | some r => r.parse_forest.length
  | none => 0

/-- Action `setResult`: store the result, reset the parse index to 0,
clear the error. -/
def setResult (s : StoreState) (r : AnalysisTree) : StoreState :=
  { s with result := some r, currentParseIndex := 0, error := none }

/-- Action `setLoading`. -/
def setLoading (s : StoreState) (b : Bool) : StoreState :=
  { s with isLoading := b }

/-- Action `setError`. -/
def setError (s : StoreState) (e : Option String) : StoreState :=
  { s with error := e }

/-- Action `setInputText`. -/
def setInputText (s : StoreState) (t : String) : StoreState :=
  { s with inputText := t }

/-- Action `nextParse`: increment the index only when a result exists
and the index is below `parse_forest.length - 1`. -/
def nextParse (s : StoreState) : StoreState :=
  match s.result with
  | some r =>
      if s.currentParseIndex < (r.parse_forest.length : Int) - 1 then
        { s with currentParseIndex := s.currentParseIndex + 1 }
      else s
  | none => s

/-- Action `previousParse`: decrement the index only when it is > 0. -/
def previousParse (s : StoreState) : StoreState :=
  if 0 < s.currentParseIndex then
    { s with currentParseIndex := s.currentParseIndex - 1 }
  else s

/-- Action `selectParse`: set the index only when a result exists and
`0 ≤ index < parse_forest.length`. -/
def selectParse (s : StoreState) (i : Int) : StoreState :=
  match s.result with
  | some r =>
      if 0 ≤ i ∧ i < (r.parse_forest.length : Int) then
        { s with currentParseIndex := i }
      else s
  | none => s

/-- Action `reset`: clear result, index, error and loading flag. -/
def reset (s : StoreState) : StoreState :=
  { s with result := none, currentParseIndex := 0, error := none, isLoading := false }

/-- The store actions named by the invariant claim. -/
inductive StoreAction
  | setResult (r : AnalysisTree)
  | nextParse
  | previousParse
  | selectParse (i : Int)
  | reset

/-- One store action applied to the state. -/
def stepStore (s : StoreState) : StoreAction → StoreState
  | .setResult r => setResult s r
  | .nextParse => nextParse s
  | .previousParse => previousParse s
  | .selectParse i => selectParse s i
  | .reset => reset s

/-- A sequence of store actions applied in order. -/
def runStore (s : StoreState) (as : List StoreAction) : StoreState :=
  as.foldl stepStore s

/-- The index invariant: `currentParseIndex` is non-negative and, when a
result with a non-empty forest is stored, strictly below the forest
length. -/
def storeInvariant (s : StoreState) : Prop :=
  0 ≤ s.currentParseIndex ∧
    ∀ r, s.result = some r → r.parse_forest ≠ [] →
      s.currentParseIndex < (r.parse_forest.length : Int)

/-- Outcome of the awaited `analyzeText` call inside `handleAnalyze`
in `src/ui/src/App.vue`: success, an `ApiError`, a generic `Error`, or
a non-`Error` throw. -/
inductive AnalyzeOutcome
  | ok (r : AnalysisTree)
  | apiError (detail : Option String) (message : String)
  | jsError (message : String)
  | otherError

/-- Whether the outcome is a thrown error (any non-success case). -/
def isThrow : AnalyzeOutcome → Bool
  | .ok _ => false
  | _ => true

/-- The message `handleAnalyze` passes to `setError` for a thrown
outcome (`err.detail || err.message`, `err.message`, or the fallback
the literal Analysis-failed fallback); `none` for success. JavaScript `||` treats the
empty string as falsy. -/
def analyzeErrorMessage : AnalyzeOutcome → Option String
  | .ok _ => none
  | .apiError d m => some (match d with
      | some t => if t = "" then m else t
      | none => m)
  | .jsError m => some m
  | .otherError => some "Analysis failed"

/-- `handleAnalyze` from `src/ui/src/App.vue` as a state transformer:
set loading, clear error, then either store the result or store the
error message, and finally clear the loading flag. -/
def handleAnalyze (s : StoreState) (outcome : AnalyzeOutcome) : StoreState :=
  let s1 := setError (setLoading s true) none
  match outcome with
  | .ok r => setLoading (setResult s1 r) false
  | e => setLoading (setError s1 (analyzeErrorMessage e)) false

/-- `canAnalyze` from `InputBar.vue`: non-empty trimmed input and not
loading. -/
def canAnalyze (s : StoreState) : Bool :=
  decide (0 < s.inputText.trim.length) && !s.isLoading

/-- `handleAnalyze` in `InputBar.vue`: emit `(text, mode)` only when
`canAnalyze` holds. -/
def inputBarHandleAnalyze (s : StoreState) : Option (String × AnalysisMode) :=
  if canAnalyze s then some (s.inputText, s.mode) else none

/-- A user interaction with the `InputBar` component. -/
inductive InputInteraction
  | click
  | keydown (key : String) (shiftKey : Bool)

/-- The `analyze` event (if any) the `InputBar` emits for an
interaction: a button click calls `handleAnalyze`; a keydown calls it
only for Enter without Shift (`handleKeydown`). -/
def inputBarEmit (s : StoreState) : InputInteraction → Option (String × AnalysisMode)
  | .click => inputBarHandleAnalyze s
  | .keydown k shift =>
      if k = "Enter" ∧ shift = false then inputBarHandleAnalyze s else none

/-- Modelled from the spec: the ensemble/disambiguation/cache core is
absent from `src/` (it exists only as a design document), so a
`CandidateParse` as one engine produces it is modelled from §3/§4.1:
sandhi split points, lemma sequence, a surface form, and the confidence that engine
assigns in [0,1]. Structural equivalence (§4.2 step 1) is
identity of split points and lemma sequence. -/
structure Candidate where
  splitPoints : List Nat
  lemmas : List String
  surface : String
  conf : ℚ
deriving DecidableEq, Repr

/-- The structural-equivalence merge key of a candidate: identical
sandhi split points and identical lemma sequence. -/
def structKey (c : Candidate) : List Nat × List String :=
  (c.splitPoints, c.lemmas)

/-- Modelled from the spec: fixed per-engine trust weights (engine
configuration from the design document: vidyut 0.35, dharmamitra 0.40,
heritage 0.25), summing to 1.0 across the three engines. -/
def engineWeights : Fin 3 → ℚ
  | ⟨0, _⟩ => 0.35
  | ⟨1, _⟩ => 0.40
  | ⟨_, _⟩ => 0.25

/-- The response of one engine: `none` when it abstained (failure, timeout or
malformed response), otherwise its candidate list. -/
abbrev EngineResponses : Type := Fin 3 → Option (List Candidate)

/-- The engines that responded (did not abstain). -/
def respondedEngines (res : EngineResponses) : Finset (Fin 3) :=
  Finset.univ.filter (fun e => (res e).isSome)

/-- Modelled from the spec: proportional redistribution of the weight
of abstaining engines. The effective weight of a responding engine is its fixed
weight divided by the total weight of the responding set; an
abstaining engine contributes 0. -/
def redistribute (w : Fin 3 → ℚ) (s : Finset (Fin 3)) (e : Fin 3) : ℚ :=
  if e ∈ s then w e / (∑ x ∈ s, w x) else 0

/-- Whether engine `e` responded with a candidate in the equivalence
group with key `k`. -/
def offersKey (res : EngineResponses) (k : List Nat × List String) (e : Fin 3) : Bool :=
  match res e with
  | some cs => cs.any (fun c => decide (structKey c = k))
  | none => false

/-- The engines that responded and offered a candidate in the
equivalence group with key `k`. -/
def groupResponders (res : EngineResponses) (k : List Nat × List String) :
    Finset (Fin 3) :=
  Finset.univ.filter (fun e => offersKey res k e = true)

/-- The own confidence of engine `e` for the group with key `k` (0 when it
offered no such candidate). -/
def engineConfFor (res : EngineResponses) (e : Fin 3) (k : List Nat × List String) : ℚ :=
  match res e with
  | some cs => ((cs.find? (fun c => decide (structKey c = k))).map Candidate.conf).getD 0
  | none => 0

/-- The surface form attached to a merged group: the surface form of the first
contributing engine, engines scanned in order. -/
def groupSurface (res : EngineResponses) (k : List Nat × List String) : String :=
  (([0, 1, 2] : List (Fin 3)).findSome? (fun e =>
    match res e with
    | some cs => (cs.find? (fun c => decide (structKey c = k))).map Candidate.surface
    | none => none)).getD ""

/-- All distinct structural keys offered by responding engines. -/
def allKeys (res : EngineResponses) : List (List Nat × List String) :=
  ((([0, 1, 2] : List (Fin 3)).map (fun e => ((res e).getD []).map structKey)).flatten).dedup

/-- Modelled from the spec: an ensemble-produced candidate parse with
aggregate confidence and the per-engine vote breakdown (§4.2 step 4). -/
structure EnsembleCandidate where
  splitPoints : List Nat
  lemmas : List String
  surface : String
  conf : ℚ
  votes : List (Fin 3 × ℚ)
deriving DecidableEq, Repr

/-- Modelled from the spec: aggregate confidence of one equivalence
group — the weighted sum of per-engine confidences using the
redistributed trust weights over the responders of the group (§4.2 step 2). -/
def mkGroupCandidate (w : Fin 3 → ℚ) (res : EngineResponses)
    (k : List Nat × List String) : EnsembleCandidate :=
  let resp := groupResponders res k
  { splitPoints := k.1
    lemmas := k.2
    surface := groupSurface res k
    conf := ∑ e ∈ resp, redistribute w resp e * engineConfFor res e k
    votes := (([0, 1, 2] : List (Fin 3)).filter (fun e => decide (e ∈ resp))).map
      (fun e => (e, engineConfFor res e k)) }

/-- Ranking order of merged groups (§4.2 step 3): aggregate confidence
descending, ties broken by number of contributing engines descending,
then lexicographic surface form. -/
def rankHigher (a b : EnsembleCandidate) : Bool :=
  if a.conf ≠ b.conf then decide (b.conf < a.conf)
  else if a.votes.length ≠ b.votes.length then decide (b.votes.length < a.votes.length)
  else decide (a.surface < b.surface)

/-- Insertion into a list sorted by the given strict priority. -/
def insertBy {α : Type} (higher : α → α → Bool) (c : α) : List α → List α
  | [] => [c]
  | d :: ds => if higher c d then c :: d :: ds else d :: insertBy higher c ds

/-- Insertion sort by the given strict priority. -/
def sortBy {α : Type} (higher : α → α → Bool) : List α → List α
  | [] => []
  | c :: cs => insertBy higher c (sortBy higher cs)

/-- Modelled from the spec: the EnsembleCombiner. Zero responding
engines yields the empty forest with the `TotalEngineFailure` signal
(`true` in the second component); otherwise the merged groups ranked by
aggregate confidence, and no failure signal. -/
def combine (w : Fin 3 → ℚ) (res : EngineResponses) :
    List EnsembleCandidate × Bool :=
  if respondedEngines res = ∅ then ([], true)
  else (sortBy rankHigher ((allKeys res).map (mkGroupCandidate w res)), false)

/-- Modelled from the spec (§7): the reason attached to a result that
needs human review. -/
inductive ReviewReason
  | lowConfidence
  | noQuorum
  | arbiterAbstained
deriving DecidableEq, Repr

/-- Modelled from the spec: the outcome of the disambiguation pipeline
for one forest — the review flag, the reason when review is needed, and
the selected candidate index when resolved. -/
structure PipelineOutcome where
  needs_human_review : Bool
  reviewReason : Option ReviewReason
  selected : Option Nat
deriving DecidableEq, Repr

/-- Modelled from the spec: pipeline configuration — skip threshold
(default 0.95), margin epsilon, arbitration-stage toggle, and the
top-K candidate count presented to the arbiter. -/
structure PipelineConfig where
  skipThreshold : ℚ
  epsilon : ℚ
  arbitrationEnabled : Bool
  topK : Nat
deriving DecidableEq, Repr

/-- Rule-adjusted score of a candidate in the RULES stage:
aggregate confidence × (1 + accumulated rule score). -/
def ruleAdjusted (ruleScore : EnsembleCandidate → ℚ) (c : EnsembleCandidate) : ℚ :=
  c.conf * (1 + ruleScore c)

/-- Modelled from the spec (§4.3): the three-stage disambiguation
pipeline over one ranked forest. RULES: select the top candidate when
it clears the skip threshold with an epsilon margin, else re-rank by
rule-adjusted score and retry; MODEL_ARBITRATION (when enabled): accept
the arbiter's choice only when it names one of the presented
candidates, else abstain; otherwise HUMAN_PENDING with the review
reason, never a guessed selection. An empty forest has no quorum. -/
def runPipeline (cfg : PipelineConfig) (ruleScore : EnsembleCandidate → ℚ)
    (arbiter : Option Nat) (forest : List EnsembleCandidate) : PipelineOutcome :=
  match forest with
  | [] => { needs_human_review := true, reviewReason := some .noQuorum, selected := none }
  | top :: rest =>
      if cfg.skipThreshold ≤ top.conf ∧
          rest.all (fun c => decide (c.conf + cfg.epsilon ≤ top.conf)) = true then
        { needs_human_review := false, reviewReason := none, selected := some 0 }
      else
        match sortBy (fun a b =>
            decide (ruleAdjusted ruleScore b < ruleAdjusted ruleScore a)) (top :: rest) with
        | [] => { needs_human_review := true, reviewReason := some .noQuorum, selected := none }
        | t :: r =>
            if cfg.skipThreshold ≤ ruleAdjusted ruleScore t ∧
                r.all (fun c => decide (ruleAdjusted ruleScore c + cfg.epsilon ≤
                  ruleAdjusted ruleScore t)) = true then
              { needs_human_review := false, reviewReason := none,
                selected := some ((top :: rest).indexOf t) }
            else if cfg.arbitrationEnabled = true then
              match arbiter with
              | some k =>
                  if k < min cfg.topK (top :: rest).length then
                    { needs_human_review := false, reviewReason := none, selected := some k }
                  else
                    { needs_human_review := true, reviewReason := some .arbiterAbstained,
                      selected := none }
              | none =>
                  { needs_human_review := true, reviewReason := some .arbiterAbstained,
                    selected := none }
            else
              { needs_human_review := true, reviewReason := some .lowConfidence,
                selected := none }

/-- Modelled from the spec: a cache tier (in-memory, shared, durable). -/
inductive CacheTier
  | memory
  | shared
  | durable
deriving DecidableEq, Repr

/-- Modelled from the spec: the core `AnalysisResult` content — the
ranked forest, the overall confidence, and the disambiguation
outcome. Tier provenance is reported alongside, not inside, so that
cached content is bit-identical across tiers. -/
structure AnalysisResult where
  forest : List EnsembleCandidate
  overall : ℚ
  outcome : PipelineOutcome
deriving DecidableEq, Repr

/-- Modelled from the spec: the three cache tiers as key-indexed
association lists, fastest first. -/
structure CacheState where
  memory : List (String × AnalysisResult)
  shared : List (String × AnalysisResult)
  durable : List (String × AnalysisResult)
deriving DecidableEq, Repr

/-- Lookup in one tier. -/
def tierLookup (l : List (String × AnalysisResult)) (k : String) : Option AnalysisResult :=
  (l.find? (fun p => decide (p.1 = k))).map Prod.snd

/-- Modelled from the spec: `get` probes tiers fastest-first; a hit at a
slower tier promotes the entry into all faster tiers before returning
the result together with its origin tier. -/
def cacheGet (st : CacheState) (k : String) :
    Option (AnalysisResult × CacheTier × CacheState) :=
  match tierLookup st.memory k with
  | some r => some (r, .memory, st)
  | none =>
      match tierLookup st.shared k with
      | some r => some (r, .shared, { st with memory := (k, r) :: st.memory })
      | none =>
          match tierLookup st.durable k with
          | some r => some (r, .durable,
              { st with memory := (k, r) :: st.memory, shared := (k, r) :: st.shared })
          | none => none

/-- Modelled from the spec: `put` writes through to all tiers. -/
def cachePut (st : CacheState) (k : String) (r : AnalysisResult) : CacheState :=
  { memory := (k, r) :: st.memory
    shared := (k, r) :: st.shared
    durable := (k, r) :: st.durable }

/-- Modelled from the spec: the orchestrator's read-only collaborators
and configuration — the engine ensemble, text normalization, pipeline
configuration, rule scores, and the model arbiter. -/
structure OrchestratorEnv where
  engines : String → AnalysisMode → EngineResponses
  normalize : String → String
  pipelineConfig : PipelineConfig
  ruleScore : EnsembleCandidate → ℚ
  arbiter : String → AnalysisMode → Option Nat

/-- Modelled from the spec: cache key derivation — normalized text
combined with the analysis mode. -/
def cacheKey (env : OrchestratorEnv) (text : String) (mode : AnalysisMode) : String :=
  env.normalize text ++ "|" ++ mode.toWire

/-- The only error the orchestrator surfaces to its caller. -/
inductive AnalysisError
  | totalEngineFailure
deriving DecidableEq, Repr

/-- Build the `AnalysisResult` for a freshly combined forest: overall
confidence is that of the top-ranked candidate, and the disambiguation
outcome comes from the pipeline. -/
def mkResult (env : OrchestratorEnv) (text : String) (mode : AnalysisMode)
    (forest : List EnsembleCandidate) : AnalysisResult :=
  { forest := forest
    overall := (forest.head?.map EnsembleCandidate.conf).getD 0
    outcome := runPipeline env.pipelineConfig env.ruleScore (env.arbiter text mode) forest }

/-- Modelled from the spec (§4.5): `analyze` — cache lookup first,
returning tier provenance on a hit; on a miss run the combiner,
surface `TotalEngineFailure` without caching anything when it signals
total failure, otherwise run the pipeline and write the result through
to all tiers. A fresh result carries no origin tier. -/
def analyze (env : OrchestratorEnv) (st : CacheState) (text : String) (mode : AnalysisMode) :
    Except AnalysisError (AnalysisResult × Option CacheTier) × CacheState :=
  match cacheGet st (cacheKey env text mode) with
  | some (r, tier, st') => (.ok (r, some tier), st')
  | none =>
      if (combine engineWeights (env.engines text mode)).2 = true then
        (.error .totalEngineFailure, st)
      else
        (.ok (mkResult env text mode (combine engineWeights (env.engines text mode)).1, none),
          cachePut st (cacheKey env text mode)
            (mkResult env text mode (combine engineWeights (env.engines text mode)).1))

/-- A concrete 2-of-3 engine response: engines 0 and 1 respond with one
candidate each, engine 2 abstains. -/
def twoOfThree : EngineResponses := fun e =>
  if e.val ≤ 1 then some [{ splitPoints := [2], lemmas := ["rAma", "gam"],
                            surface := "rAmo gacCati", conf := 0.9 }]
  else none

/-- An empty cache: all three tiers empty. -/
def emptyCache : CacheState := { memory := [], shared := [], durable := [] }

/-- A pipeline configuration with the default 0.95 skip
threshold, an epsilon margin of 0.05, arbitration enabled, top-2
candidates to the arbiter. -/
def defaultConfig : PipelineConfig :=
  { skipThreshold := 0.95, epsilon := 0.05, arbitrationEnabled := true, topK := 2 }

/-- An environment in which every engine is down. -/
def deadEnv : OrchestratorEnv :=
  { engines := fun _ _ => fun _ => none
    normalize := id
    pipelineConfig := defaultConfig
    ruleScore := fun _ => 0
    arbiter := fun _ _ => none }

/-- An environment in which every engine responds with the same single
candidate. -/
def liveEnv : OrchestratorEnv :=
  { engines := fun _ _ => twoOfThree
    normalize := id
    pipelineConfig := defaultConfig
    ruleScore := fun _ => 0
    arbiter := fun _ _ => none }

/-- The first `analyze` call of the idempotence witness. -/
def firstCall : Except AnalysisError (AnalysisResult × Option CacheTier) × CacheState :=
  analyze liveEnv emptyCache "rAmaH" AnalysisMode.production

/-- The result content returned by `firstCall`. -/
def firstCallResult : AnalysisResult :=
  match firstCall.1 with
  | .ok (r, _) => r
  | .error _ => { forest := [], overall := 0,
                  outcome := { needs_human_review := true, reviewReason := none, selected := none } }

/-- The tier provenance returned by `firstCall`. -/
def firstCallTier : Option CacheTier :=
  match firstCall.1 with
  | .ok (_, t) => t
  | .error _ => none

/-- A forest of two structurally distinct candidates both at confidence
0.45 (the low-confidence scenario of §8). -/
def lowForest : List EnsembleCandidate :=
  [{ splitPoints := [2], lemmas := ["rAma"], surface := "rAmaH", conf := 0.45,
     votes := [(0, 0.45)] },
   { splitPoints := [3], lemmas := ["rA", "maH"], surface := "rA maH", conf := 0.45,
     votes := [(1, 0.45)] }]

/-- A concrete two-parse analysis result for store witnesses. -/
def demoTree : AnalysisTree :=
  { sentence_id := "s1"
    original_text := "rAmaH gacCati"
    normalized_slp1 := "rAmaH gacCati"
    scripts := { devanagari := "", iast := "", slp1 := "rAmaH gacCati", itrans := none }
    parse_forest :=
      [{ parse_id := "p1", confidence := 0.9, sandhi_groups := [], is_selected := false },
       { parse_id := "p2", confidence := 0.6, sandhi_groups := [], is_selected := false }]
    confidence := { overall := 0.9, engine_agreement := 0.9, disambiguation_score := none }
    mode := "production"
    cached_at := none
    cache_tier := none
    needs_human_review := false
    engine_details := none }

/-- A store state that already displays `demoTree`. -/
def demoState : StoreState :=
  { initialStore with result := some demoTree, inputText := "rAmaH" }

/-- A store state currently loading. -/
def loadingState : StoreState :=
  { initialStore with inputText := "rAmaH", isLoading := true }

/-! ## Theorems -/

theorem sum_redistribute_eq_one (w : Fin 3 → ℚ) (s : Finset (Fin 3))
    (h : (∑ x ∈ s, w x) ≠ 0) :
    ∑ e ∈ s, redistribute w s e = 1 := by
  have hs : ∑ e ∈ s, redistribute w s e = ∑ e ∈ s, w e / (∑ x ∈ s, w x) :=
    Finset.sum_congr rfl (fun e he => by simp [redistribute, he])
  rw [hs, ← Finset.sum_div, div_self h]

theorem engineWeights_pos (e : Fin 3) : 0 < engineWeights e := by
  fin_cases e <;> with_unfolding_all decide

theorem sum_engineWeights_pos (s : Finset (Fin 3)) (hs : s.Nonempty) :
    0 < ∑ x ∈ s, engineWeights x :=
  Finset.sum_pos (fun e _ => engineWeights_pos e) hs

/-- C1: when a subset of engines abstains but at least one responds
(here: any non-empty responder set `s` of an equivalence group), the fixed trust weight of each
abstaining engine is redistributed proportionally
among the responders, so the per-engine weights used for the aggregate
confidence sum to exactly 1; in particular, when exactly one engine
fails the remaining weights sum to exactly 1 and the combiner does not
signal `TotalEngineFailure`. -/
theorem ensemble_weight_redistribution (s : Finset (Fin 3)) (hs : s.Nonempty)
    (res : EngineResponses) (h2 : (respondedEngines res).card = 2) :
    (∑ e ∈ s, redistribute engineWeights s e) = 1 ∧
    (∑ e ∈ respondedEngines res, redistribute engineWeights (respondedEngines res) e) = 1 ∧
    (combine engineWeights res).2 = false := by
  have hres : (respondedEngines res).Nonempty := Finset.card_pos.mp (by omega)
  have hne : respondedEngines res ≠ ∅ := Finset.nonempty_iff_ne_empty.mp hres
  exact ⟨sum_redistribute_eq_one _ _ (ne_of_gt (sum_engineWeights_pos s hs)),
    sum_redistribute_eq_one _ _ (ne_of_gt (sum_engineWeights_pos _ hres)),
    by simp [combine, hne]⟩

/-- Witness for C1: a concrete 2-of-3 response (engine 2 failed). -/
theorem ensemble_weight_redistribution_witness :
    (∑ e ∈ ({0, 1} : Finset (Fin 3)), redistribute engineWeights {0, 1} e) = 1 ∧
    (∑ e ∈ respondedEngines twoOfThree,
        redistribute engineWeights (respondedEngines twoOfThree) e) = 1 ∧
    (combine engineWeights twoOfThree).2 = false :=
  ensemble_weight_redistribution {0, 1} (by decide) twoOfThree (by with_unfolding_all decide)

/-- C2: when zero engines respond on a cache miss, the combiner returns
an empty `ParseForest` and signals `TotalEngineFailure`, `analyze`
returns the fatal error to the caller, and no cache tier is written
(the cache state is unchanged). -/
theorem analyze_total_failure (env : OrchestratorEnv) (st : CacheState)
    (text : String) (mode : AnalysisMode)
    (hmiss : cacheGet st (cacheKey env text mode) = none)
    (habstain : respondedEngines (env.engines text mode) = ∅) :
    combine engineWeights (env.engines text mode) = ([], true) ∧
    (analyze env st text mode).1 = Except.error AnalysisError.totalEngineFailure ∧
    (analyze env st text mode).2 = st := by
  have hc : combine engineWeights (env.engines text mode) = ([], true) := by
    simp [combine, habstain]
  refine ⟨hc, ?_, ?_⟩ <;> simp [analyze, hmiss, hc]

/-- Witness for C2: an environment where all three engines are down and
the cache is empty. -/
theorem analyze_total_failure_witness :
    combine engineWeights (deadEnv.engines "rAmaH" AnalysisMode.production) = ([], true) ∧
    (analyze deadEnv emptyCache "rAmaH" AnalysisMode.production).1 =
      Except.error AnalysisError.totalEngineFailure ∧
    (analyze deadEnv emptyCache "rAmaH" AnalysisMode.production).2 = emptyCache :=
  analyze_total_failure deadEnv emptyCache "rAmaH" AnalysisMode.production rfl
    (by with_unfolding_all decide)

theorem tierLookup_cons_self (l : List (String × AnalysisResult)) (k : String)
    (r : AnalysisResult) : tierLookup ((k, r) :: l) k = some r := by
  simp [tierLookup, List.find?]

theorem cacheGet_memory_entry (st : CacheState) (k : String) (r : AnalysisResult)
    (tier : CacheTier) (st' : CacheState) (h : cacheGet st k = some (r, tier, st')) :
    tierLookup st'.memory k = some r := by
  unfold cacheGet at h
  split at h
  next r0 heq =>
    simp only [Option.some.injEq, Prod.mk.injEq] at h
    obtain ⟨hr, _, hst⟩ := h
    rw [← hst, ← hr]
    exact heq
  next =>
    split at h
    next r0 heq =>
      simp only [Option.some.injEq, Prod.mk.injEq] at h
      obtain ⟨hr, _, hst⟩ := h
      rw [← hst, ← hr]
      exact tierLookup_cons_self _ _ _
    next =>
      split at h
      next r0 heq =>
        simp only [Option.some.injEq, Prod.mk.injEq] at h
        obtain ⟨hr, _, hst⟩ := h
        rw [← hst, ← hr]
        exact tierLookup_cons_self _ _ _
      next => exact absurd h (by simp)

theorem analyze_memory_after_ok (env : OrchestratorEnv) (st : CacheState)
    (text : String) (mode : AnalysisMode) (r : AnalysisResult)
    (t : Option CacheTier) (st' : CacheState)
    (h : analyze env st text mode = (Except.ok (r, t), st')) :
    tierLookup st'.memory (cacheKey env text mode) = some r := by
  unfold analyze at h
  split at h
  next r0 tier st0 heq =>
    simp only [Prod.mk.injEq, Except.ok.injEq] at h
    obtain ⟨⟨hr, _⟩, hst⟩ := h
    rw [← hst, ← hr]
    exact cacheGet_memory_entry st _ r0 tier st0 heq
  next =>
    split at h
    · exact absurd h (by simp)
    · simp only [Prod.mk.injEq, Except.ok.injEq] at h
      obtain ⟨⟨hr, _⟩, hst⟩ := h
      rw [← hst, ← hr]
      exact tierLookup_cons_self _ _ _

/-- C3: after any successful `analyze` for a text and mode, calling
`analyze` again with the identical text and mode returns bit-identical
`AnalysisResult` content, served from the fastest tier with memory
provenance and an unchanged cache. -/
theorem analyze_idempotent (env : OrchestratorEnv) (st : CacheState)
    (text : String) (mode : AnalysisMode) (r : AnalysisResult)
    (t : Option CacheTier) (st' : CacheState)
    (h : analyze env st text mode = (Except.ok (r, t), st')) :
    analyze env st' text mode = (Except.ok (r, some CacheTier.memory), st') := by
  have hmem := analyze_memory_after_ok env st text mode r t st' h
  have hget : cacheGet st' (cacheKey env text mode) = some (r, CacheTier.memory, st') := by
    unfold cacheGet
    rw [hmem]
  unfold analyze
  rw [hget]

/-- Witness for C3: a concrete first call on an empty cache followed by
the identical second call. -/
theorem analyze_idempotent_witness :
    analyze liveEnv firstCall.2 "rAmaH" AnalysisMode.production =
      (Except.ok (firstCallResult, some CacheTier.memory), firstCall.2) :=
  analyze_idempotent liveEnv emptyCache "rAmaH" AnalysisMode.production
    firstCallResult firstCallTier firstCall.2 (by with_unfolding_all rfl)

/-- C4 counterexample: at confidence 0.6 the UI badge classifies
`medium` (and `getConfidenceColor` returns yellow), while the claimed specification
boundaries (0.95 / 0.7) put 0.6 in the low band; hence the bands in the code are not the bands of the specification. -/
theorem confidence_band_counterexample :
    confidenceBadgeBand 0.6 = Band.medium ∧ specBand 0.6 = Band.low ∧
    getConfidenceColor 0.6 = "#eab308" ∧
    ¬ (∀ c : ℚ, confidenceBadgeBand c = specBand c) := by
  have h1 : confidenceBadgeBand 0.6 = Band.medium := by with_unfolding_all decide
  have h2 : specBand 0.6 = Band.low := by with_unfolding_all decide
  refine ⟨h1, h2, by with_unfolding_all decide, fun hall => ?_⟩
  rw [hall 0.6, h2] at h1
  exact absurd h1 (by decide)

/-- C4 amended: wherever the UI classifies a confidence value into
bands, the boundaries are 0.8 and 0.5 — high iff ≥ 0.8, medium iff in
[0.5, 0.8), low iff < 0.5 — and `getConfidenceColor` colors exactly
those bands green, yellow and red. -/
theorem confidence_band_boundaries (c : ℚ) :
    (confidenceBadgeBand c = Band.high ↔ 0.8 ≤ c) ∧
    (confidenceBadgeBand c = Band.medium ↔ 0.5 ≤ c ∧ c < 0.8) ∧
    (confidenceBadgeBand c = Band.low ↔ c < 0.5) ∧
    getConfidenceColor c = (match confidenceBadgeBand c with
      | Band.high => "#22c55e"
      | Band.medium => "#eab308"
      | Band.low => "#ef4444") := by
  unfold confidenceBadgeBand getConfidenceColor
  by_cases h1 : (0.8 : ℚ) ≤ c
  · have h2 : ¬ c < 0.8 := not_lt.mpr h1
    have h3 : ¬ c < 0.5 := by
      intro hc
      exact h2 (by linarith)
    simp [h1, h2, h3]
  · by_cases h2 : (0.5 : ℚ) ≤ c
    · have h3 : c < 0.8 := not_le.mp h1
      have h4 : ¬ c < 0.5 := not_lt.mpr h2
      simp [h1, h2, h3, h4]
    · have h3 : c < 0.5 := not_le.mp h2
      simp [h1, h2, h3]

/-- Witness for the amended C4 at confidence 0.85. -/
theorem confidence_band_boundaries_witness :
    (confidenceBadgeBand 0.85 = Band.high ↔ (0.8 : ℚ) ≤ 0.85) ∧
    (confidenceBadgeBand 0.85 = Band.medium ↔ (0.5 : ℚ) ≤ 0.85 ∧ (0.85 : ℚ) < 0.8) ∧
    (confidenceBadgeBand 0.85 = Band.low ↔ (0.85 : ℚ) < 0.5) ∧
    getConfidenceColor 0.85 = (match confidenceBadgeBand 0.85 with
      | Band.high => "#22c55e"
      | Band.medium => "#eab308"
      | Band.low => "#ef4444") :=
  confidence_band_boundaries 0.85

theorem runPipeline_resolved_or_reason (cfg : PipelineConfig)
    (ruleScore : EnsembleCandidate → ℚ) (arbiter : Option Nat)
    (forest : List EnsembleCandidate) :
    (runPipeline cfg ruleScore arbiter forest).needs_human_review = false ∨
    ((runPipeline cfg ruleScore arbiter forest).reviewReason.isSome = true ∧
     (runPipeline cfg ruleScore arbiter forest).selected = none) := by
  unfold runPipeline
  repeat' split
  all_goals simp

/-- C5: every `AnalysisResult` the core builds carries the
`needs_human_review` flag (a required field of its outcome), and
whenever that flag is true the result also carries a review reason (low
confidence, no quorum, or arbiter abstained) and no guessed selection. -/
theorem result_review_flag_reason (env : OrchestratorEnv) (text : String)
    (mode : AnalysisMode) (forest : List EnsembleCandidate)
    (h : (mkResult env text mode forest).outcome.needs_human_review = true) :
    ((mkResult env text mode forest).outcome.reviewReason).isSome = true ∧
    (mkResult env text mode forest).outcome.selected = none := by
  rcases runPipeline_resolved_or_reason env.pipelineConfig env.ruleScore
      (env.arbiter text mode) forest with hf | hr
  · unfold mkResult at h
    simp only at h
    rw [h] at hf
    exact absurd hf (by decide)
  · exact hr

/-- Witness for C5: two structurally distinct candidates at confidence
0.45 with the arbiter unavailable — the result is flagged for review
with a reason and no selection. -/
theorem result_review_flag_reason_witness :
    ((mkResult liveEnv "x" AnalysisMode.production lowForest).outcome.reviewReason).isSome = true ∧
    (mkResult liveEnv "x" AnalysisMode.production lowForest).outcome.selected = none :=
  result_review_flag_reason liveEnv "x" AnalysisMode.production lowForest
    (by with_unfolding_all rfl)

/-- C6 counterexample: the request built by the client function
`saveDisambiguation` at a concrete input carries the selected parse as the
string-valued field `selected_parse` and has no `selected_index` field
at all — the human-override completion does not take a numeric index of
the selected parse. -/
theorem resolve_request_counterexample :
    ((saveDisambiguationRequest "s1" "p2").body.lookup "selected_index" = none) ∧
    ((saveDisambiguationRequest "s1" "p2").body.lookup "selected_parse"
      = some (JsonValue.str "p2")) :=
  ⟨rfl, rfl⟩

/-- C6 amended: the human-override completion is
`saveDisambiguation(sentence_id, selected_parse)`: it posts the
sentence identifier together with the string id of the selected parse
to `/api/v1/disambiguate` (no numeric index field) and yields the
server's new `AnalysisTree`, leaving the prior result unmutated. -/
theorem resolve_request_shape (sid sp : String) :
    (saveDisambiguationRequest sid sp).method = "POST" ∧
    (saveDisambiguationRequest sid sp).path = "/api/v1/disambiguate" ∧
    (saveDisambiguationRequest sid sp).body.lookup "sentence_id"
      = some (JsonValue.str sid) ∧
    (saveDisambiguationRequest sid sp).body.lookup "selected_parse"
      = some (JsonValue.str sp) ∧
    (saveDisambiguationRequest sid sp).body.lookup "selected_index" = none :=
  ⟨rfl, rfl, rfl, rfl, rfl⟩

/-- Witness for the amended C6 at concrete identifiers. -/
theorem resolve_request_shape_witness :
    (saveDisambiguationRequest "sent-42" "parse-3").method = "POST" ∧
    (saveDisambiguationRequest "sent-42" "parse-3").path = "/api/v1/disambiguate" ∧
    (saveDisambiguationRequest "sent-42" "parse-3").body.lookup "sentence_id"
      = some (JsonValue.str "sent-42") ∧
    (saveDisambiguationRequest "sent-42" "parse-3").body.lookup "selected_parse"
      = some (JsonValue.str "parse-3") ∧
    (saveDisambiguationRequest "sent-42" "parse-3").body.lookup "selected_index" = none :=
  resolve_request_shape "sent-42" "parse-3"

/-- C7 counterexample: the analyze request the client builds at a
concrete input contains the field `return_all_parses`, which is not
among the five fields the claim allows — so the request shape is not
exactly {text, mode, context, engines, bypass_cache}. -/
theorem analyze_request_counterexample :
    ("return_all_parses", JsonValue.bool true) ∈
      (analyzeTextRequest "rAmaH gacCati" AnalysisMode.production
        (some true) none none none).body ∧
    "return_all_parses" ∉ claimedAnalyzeFields := by
  constructor
  · simp [analyzeTextRequest, optField]
  · decide

/-- C7 amended: an analyze request consists of the text, a mode from
{production, educational, academic} (defaulted to production by the
client), an optional return-all-parses flag, an optional context
string, an optional engine subset, and an optional cache-bypass flag —
and nothing else; text and mode are always present. -/
theorem analyze_request_shape (text : String) (mode : AnalysisMode)
    (rap : Option Bool) (ctx : Option String) (eng : Option (List String))
    (byp : Option Bool) :
    (analyzeTextRequest text mode rap ctx eng byp).method = "POST" ∧
    (analyzeTextRequest text mode rap ctx eng byp).path = "/api/v1/analyze" ∧
    ("text", JsonValue.str text) ∈ (analyzeTextRequest text mode rap ctx eng byp).body ∧
    ("mode", JsonValue.str mode.toWire) ∈
      (analyzeTextRequest text mode rap ctx eng byp).body ∧
    (∀ n ∈ ((analyzeTextRequest text mode rap ctx eng byp).body.map Prod.fst),
      n ∈ ["text", "mode", "return_all_parses", "context", "engines", "bypass_cache"]) := by
  refine ⟨rfl, rfl, by simp [analyzeTextRequest], by simp [analyzeTextRequest], ?_⟩
  cases rap <;> cases ctx <;> cases eng <;> cases byp <;>
    simp [analyzeTextRequest, optField]

/-- Witness for the amended C7 at a fully populated request. -/
theorem analyze_request_shape_witness :
    (analyzeTextRequest "agniH" AnalysisMode.educational (some false) (some "rgveda")
      (some ["vidyut"]) (some true)).method = "POST" ∧
    (analyzeTextRequest "agniH" AnalysisMode.educational (some false) (some "rgveda")
      (some ["vidyut"]) (some true)).path = "/api/v1/analyze" ∧
    ("text", JsonValue.str "agniH") ∈ (analyzeTextRequest "agniH" AnalysisMode.educational
      (some false) (some "rgveda") (some ["vidyut"]) (some true)).body ∧
    ("mode", JsonValue.str AnalysisMode.educational.toWire) ∈
      (analyzeTextRequest "agniH" AnalysisMode.educational (some false) (some "rgveda")
        (some ["vidyut"]) (some true)).body ∧
    (∀ n ∈ ((analyzeTextRequest "agniH" AnalysisMode.educational (some false) (some "rgveda")
        (some ["vidyut"]) (some true)).body.map Prod.fst),
      n ∈ ["text", "mode", "return_all_parses", "context", "engines", "bypass_cache"]) :=
  analyze_request_shape "agniH" AnalysisMode.educational (some false) (some "rgveda")
    (some ["vidyut"]) (some true)

theorem stepStore_invariant (s : StoreState) (a : StoreAction)
    (h : storeInvariant s) : storeInvariant (stepStore s a) := by
  obtain ⟨h0, hlt⟩ := h
  cases a with
  | setResult r =>
      refine ⟨by simp [stepStore, setResult], fun r' hr' hne => ?_⟩
      simp only [stepStore, setResult, Option.some.injEq] at hr' ⊢
      subst hr'
      have := List.length_pos.mpr hne
      omega
  | nextParse =>
      simp only [stepStore, nextParse]
      split
      next r hres =>
        split
        next hc =>
          refine ⟨by dsimp only; omega, fun r' hr' hne => ?_⟩
          dsimp only at hr' ⊢
          rw [hres] at hr'
          cases hr'
          omega
        next hc => exact ⟨h0, hlt⟩
      next hres => exact ⟨h0, hlt⟩
  | previousParse =>
      simp only [stepStore, previousParse]
      split
      next hc =>
        refine ⟨by dsimp only; omega, fun r' hr' hne => ?_⟩
        dsimp only at hr' ⊢
        have := hlt r' hr' hne
        omega
      next hc => exact ⟨h0, hlt⟩
  | selectParse i =>
      simp only [stepStore, selectParse]
      split
      next r hres =>
        split
        next hc =>
          refine ⟨by dsimp only; omega, fun r' hr' hne => ?_⟩
          dsimp only at hr' ⊢
          rw [hres] at hr'
          cases hr'
          omega
        next hc => exact ⟨h0, hlt⟩
      next hres => exact ⟨h0, hlt⟩
  | reset =>
      exact ⟨le_refl 0, fun r' hr' hne => by simp [stepStore, reset] at hr'⟩

theorem runStore_invariant_aux (as : List StoreAction) (s : StoreState)
    (h : storeInvariant s) : storeInvariant (runStore s as) := by
  induction as generalizing s with
  | nil => exact h
  | cons a as ih =>
      simp only [runStore, List.foldl_cons] at ih ⊢
      exact ih (stepStore s a) (stepStore_invariant s a h)

/-- C8: after any sequence of `setResult`, `nextParse`, `previousParse`,
`selectParse` and `reset` from the initial store state,
`currentParseIndex` is always ≥ 0 and, whenever the stored result has a
non-empty `parse_forest`, strictly below its length; `currentParse`
never indexes out of bounds — it returns an element of the forest when
the forest is non-empty and null when there is no result or the forest
is empty. -/
theorem store_parse_index_invariant (as : List StoreAction) :
    storeInvariant (runStore initialStore as) ∧
    (∀ r, (runStore initialStore as).result = some r → r.parse_forest ≠ [] →
      ∃ p, p ∈ r.parse_forest ∧ currentParse (runStore initialStore as) = some p) ∧
    ((runStore initialStore as).result = none →
      currentParse (runStore initialStore as) = none) ∧
    (∀ r, (runStore initialStore as).result = some r → r.parse_forest = [] →
      currentParse (runStore initialStore as) = none) := by
  have hinv : storeInvariant (runStore initialStore as) :=
    runStore_invariant_aux as initialStore
      ⟨le_refl 0, by intro r hr; simp [initialStore] at hr⟩
  obtain ⟨h0, hlt⟩ := hinv
  refine ⟨⟨h0, hlt⟩, ?_, ?_, ?_⟩
  · intro r hr hne
    have hb := hlt r hr hne
    have hlen : r.parse_forest.length ≠ 0 := fun h => hne (List.length_eq_zero.mp h)
    unfold currentParse
    rw [hr]
    dsimp only
    rw [if_neg hlen]
    unfold jsGet
    rw [if_pos h0]
    have hidx : (runStore initialStore as).currentParseIndex.toNat < r.parse_forest.length := by
      omega
    exact ⟨r.parse_forest.get ⟨_, hidx⟩, List.get_mem _ _ hidx, List.get?_eq_get hidx⟩
  · intro hr
    unfold currentParse
    rw [hr]
  · intro r hr hlen0
    unfold currentParse
    rw [hr]
    dsimp only
    rw [if_pos (by simp [hlen0])]

/-- Witness for C8: after storing a two-parse result and advancing once,
`currentParse` returns an element of the forest. -/
theorem store_parse_index_invariant_witness :
    ∃ p, p ∈ demoTree.parse_forest ∧
      currentParse (runStore initialStore
        [StoreAction.setResult demoTree, StoreAction.nextParse]) = some p :=
  (store_parse_index_invariant [StoreAction.setResult demoTree, StoreAction.nextParse]).2.1
    demoTree (by with_unfolding_all rfl) (by simp [demoTree])

/-- C9: if the awaited `analyzeText` call inside `handleAnalyze`
throws, the stored result is left unchanged, the error field is set to
a message, and `isLoading` is false once the handler completes; on
success the error field is null. -/
theorem handleAnalyze_error_behavior (s : StoreState) (o : AnalyzeOutcome) :
    (isThrow o = true →
      (handleAnalyze s o).result = s.result ∧ (handleAnalyze s o).error.isSome = true) ∧
    (handleAnalyze s o).isLoading = false ∧
    (∀ r, o = AnalyzeOutcome.ok r → (handleAnalyze s o).error = none) := by
  cases o with
  | ok r =>
      refine ⟨fun h => by simp [isThrow] at h, ?_, fun r' _ => ?_⟩ <;>
        simp [handleAnalyze, setLoading, setError, setResult]
  | apiError d m =>
      refine ⟨fun _ => ⟨?_, ?_⟩, ?_, fun r h => by cases h⟩ <;>
        simp [handleAnalyze, setLoading, setError, analyzeErrorMessage]
  | jsError m =>
      refine ⟨fun _ => ⟨?_, ?_⟩, ?_, fun r h => by cases h⟩ <;>
        simp [handleAnalyze, setLoading, setError, analyzeErrorMessage]
  | otherError =>
      refine ⟨fun _ => ⟨?_, ?_⟩, ?_, fun r h => by cases h⟩ <;>
        simp [handleAnalyze, setLoading, setError, analyzeErrorMessage]

/-- Witness for C9: a thrown network error over a state that already
displays a result. -/
theorem handleAnalyze_error_behavior_witness :
    (handleAnalyze demoState (AnalyzeOutcome.jsError "network down")).result
      = demoState.result ∧
    (handleAnalyze demoState (AnalyzeOutcome.jsError "network down")).error.isSome = true ∧
    (handleAnalyze demoState (AnalyzeOutcome.jsError "network down")).isLoading = false := by
  have h := handleAnalyze_error_behavior demoState (AnalyzeOutcome.jsError "network down")
  exact ⟨(h.1 rfl).1, (h.1 rfl).2, h.2.1⟩

/-- C10: the `InputBar` never emits the analyze event while the store
is loading or while the input text is empty after trimming, on any
interaction path (button click or Enter keypress); when it does emit,
the payload is the current input text and mode. -/
theorem inputBar_emit_guard (s : StoreState) (i : InputInteraction) :
    (s.isLoading = true → inputBarEmit s i = none) ∧
    (s.inputText.trim = "" → inputBarEmit s i = none) ∧
    (∀ p, inputBarEmit s i = some p → p = (s.inputText, s.mode)) := by
  have hnone : canAnalyze s = false → inputBarHandleAnalyze s = none := fun h => by
    simp [inputBarHandleAnalyze, h]
  have hguard : ∀ h : canAnalyze s = false, inputBarEmit s i = none := by
    intro h
    cases i with
    | click => exact hnone h
    | keydown k sh =>
        simp only [inputBarEmit]
        split
        · exact hnone h
        · rfl
  refine ⟨fun h => hguard (by simp [canAnalyze, h]),
          fun h => hguard (by simp [canAnalyze, h]),
          fun p hp => ?_⟩
  have hval : ∀ q, inputBarHandleAnalyze s = some q → q = (s.inputText, s.mode) := by
    intro q hq
    unfold inputBarHandleAnalyze at hq
    split at hq
    · injection hq with h
      exact h.symm
    · cases hq
  cases i with
  | click => exact hval p hp
  | keydown k sh =>
      simp only [inputBarEmit] at hp
      split at hp
      · exact hval p hp
      · cases hp

/-- Witness for C10: a loading store never emits on click. -/
theorem inputBar_emit_guard_witness :
    inputBarEmit loadingState InputInteraction.click = none :=
  (inputBar_emit_guard loadingState InputInteraction.click).1 rfl

end SanskritAnalyser
